import Mathlib

/-!
Verification of the network-management migration tool's core string pipeline.

The development shallowly embeds the Python sources
`universal_interface_parser.py`, `interface_translator.py`,
`config_parser.py` and the stack/Layer-3 logic of `routes.py`.
Python strings are modeled as `List Char`; the regular expressions used by
the source are backtracking-free at every point where they are applied
(each `\d+` is followed by a non-digit literal or the end of the pattern),
so they are embedded as deterministic maximal-munch matchers.
`\d` is modeled as an ASCII digit and `\s` as ASCII whitespace.
-/

/-- ASCII whitespace, as stripped by Python `str.strip()` / matched by `\s`. -/
def isPySpace (c : Char) : Bool :=
  c = ' ' || c = '\t' || c = '\n' || c = '\x0d' || c = '\x0b' || c = '\x0c'

/-- Python `str.strip()`: drop leading and trailing whitespace. -/
def pyStrip (l : List Char) : List Char :=
  ((l.dropWhile isPySpace).reverse.dropWhile isPySpace).reverse

/-- If `pfx` is a prefix of `s`, return the remainder, else `none`
(the anchored literal part of a `re.match`). -/
def stripPfxOf : List Char → List Char → Option (List Char)
  | [], s => some s
  | _ :: _, [] => none
  | p :: ps, c :: cs => if p = c then stripPfxOf ps cs else none

/-- Accumulator-based splitter: maximal runs of characters satisfying `keep`. -/
def tokensByAux (keep : Char → Bool) : List Char → List Char → List (List Char)
  | [], acc => if acc.isEmpty then [] else [acc.reverse]
  | c :: rest, acc =>
    if keep c then tokensByAux keep rest (c :: acc)
    else if acc.isEmpty then tokensByAux keep rest []
    else acc.reverse :: tokensByAux keep rest []

/-- Maximal runs of characters satisfying `keep`, in order. -/
def tokensBy (keep : Char → Bool) (s : List Char) : List (List Char) :=
  tokensByAux keep s []

/-- Python `str.split()` with no argument: whitespace-separated words. -/
def pySplitWs (s : List Char) : List (List Char) :=
  tokensBy (fun c => !isPySpace c) s

/-- Decimal value of a digit run (Python `int` on a `\d+` match). -/
def digitsToNat (l : List Char) : Nat :=
  l.foldl (fun n c => 10 * n + (c.toNat - 48)) 0

/-- `re.findall(r'\d+', s)` followed by `int`: every maximal digit run. -/
def findAllNumbers (s : List Char) : List Nat :=
  (tokensBy Char.isDigit s).map digitsToNat

/-- Python substring test `pat in s`. -/
def isSubstr (pat : List Char) : List Char → Bool
  | [] => pat.isEmpty
  | c :: t => pat.isPrefixOf (c :: t) || isSubstr pat t

/-- Fuel-indexed scanner for `replaceAll`; every step consumes at least one
character, so fuel `s.length` can never run out. -/
def replaceAllAux (pat rep : List Char) : Nat → List Char → List Char
  | 0, s => s
  | _ + 1, [] => []
  | fuel + 1, c :: rest =>
    if pat ≠ [] ∧ pat.isPrefixOf (c :: rest) then
      rep ++ replaceAllAux pat rep fuel (rest.drop (pat.length - 1))
    else
      c :: replaceAllAux pat rep fuel rest

/-- Python `s.replace(pat, rep)` for a non-empty `pat`:
replace every (leftmost, non-overlapping) occurrence. -/
def replaceAll (pat rep s : List Char) : List Char :=
  replaceAllAux pat rep s.length s

/-- Greedy `(\d+)`: the maximal digit run (must be non-empty) and its value. -/
def readNum (l : List Char) : Option (Int × List Char) :=
  let d := l.takeWhile Char.isDigit
  if d.isEmpty then none else some ((digitsToNat d : Int), l.dropWhile Char.isDigit)

/-- A literal `/` in a pattern. -/
def expectSlash : List Char → Option (List Char)
  | [] => none
  | c :: r => if c = '/' then some r else none

/-- `re.match(r'PFX(\d+)/(\d+)/(\d+)', s)`: the three captured numbers. -/
def matchSeg3 (pfx s : List Char) : Option (Int × Int × Int) := do
  let r1 ← stripPfxOf pfx s
  let (a, r2) ← readNum r1
  let r3 ← expectSlash r2
  let (b, r4) ← readNum r3
  let r5 ← expectSlash r4
  let (c, _) ← readNum r5
  pure (a, b, c)

/-- `re.match(r'PFX(\d+)/(\d+)', s)`: the two captured numbers. -/
def matchSeg2 (pfx s : List Char) : Option (Int × Int) := do
  let r1 ← stripPfxOf pfx s
  let (a, r2) ← readNum r1
  let r3 ← expectSlash r2
  let (b, _) ← readNum r3
  pure (a, b)

/-- "GigabitEthernet" -/
def gigL : List Char :=
  ['G', 'i', 'g', 'a', 'b', 'i', 't', 'E', 't', 'h', 'e', 'r', 'n', 'e', 't']

/-- "GE" -/
def geL : List Char := ['G', 'E']

/-- "Ethernet" -/
def ethernetL : List Char := ['E', 't', 'h', 'e', 'r', 'n', 'e', 't']

/-- "Eth" -/
def ethL : List Char := ['E', 't', 'h']

/-- "FastEthernet" -/
def fastL : List Char := ['F', 'a', 's', 't', 'E', 't', 'h', 'e', 'r', 'n', 'e', 't']

/-- "gigabitethernet" -/
def gigLowerL : List Char :=
  ['g', 'i', 'g', 'a', 'b', 'i', 't', 'e', 't', 'h', 'e', 'r', 'n', 'e', 't']

/-- One alternative of the generic pattern
`((?:Gigabit|Fast)?Ethernet|Eth|GE)[\d/]+`: the literal `pfx` followed by at
least one digit-or-slash character; the captured group is `pfx` itself. -/
def genTry (pfx s : List Char) : Option (List Char) :=
  match stripPfxOf pfx s with
  | some (c :: _) => if Char.isDigit c || c = '/' then some pfx else none
  | _ => none

/-- `re.match` of the generic fallback pattern, alternatives in the order the
regex engine tries them; returns the captured interface-type token. -/
def matchGeneric (s : List Char) : Option (List Char) :=
  genTry gigL s <|> genTry fastL s <|> genTry ethernetL s <|>
    genTry ethL s <|> genTry geL s

/-- The `format` key of a pattern entry in
`UniversalInterfaceParser.INTERFACE_PATTERNS`. -/
inductive IfFormat where
  | full
  | slot_port
  | generic
deriving DecidableEq, Repr

/-- Result dict of `UniversalInterfaceParser.parse_interface_name`. -/
structure ParsedIntf where
  original : List Char
  vendor_type : String
  pfx : List Char
  format : IfFormat
  stack : Int
  slot : Int
  port : Int
deriving DecidableEq, Repr

/-- One `full` (stack/slot/port) pattern attempt. -/
def tryFull (pfx : List Char) (vt : String) (s : List Char) : Option ParsedIntf :=
  (matchSeg3 pfx s).map fun t =>
    { original := s, vendor_type := vt, pfx := pfx, format := IfFormat.full
      stack := t.1, slot := t.2.1, port := t.2.2 }

/-- One `slot_port` pattern attempt (`stack` normalized to 0). -/
def trySlotPort (pfx : List Char) (vt : String) (s : List Char) : Option ParsedIntf :=
  (matchSeg2 pfx s).map fun t =>
    { original := s, vendor_type := vt, pfx := pfx, format := IfFormat.slot_port
      stack := 0, slot := t.1, port := t.2 }

/-- The generic-fallback attempt: all numbers of the whole string are
extracted with `re.findall(r'\d+', ...)` and assigned positionally:
`stack = numbers[0] if numbers else 0`, `slot = numbers[1] if len > 1 else 0`,
`port = numbers[2] if len > 2 else (numbers[-1] if numbers else 0)`. -/
def tryGeneric (s : List Char) : Option ParsedIntf :=
  (matchGeneric s).map fun pfx =>
    let ns := findAllNumbers s
    { original := s, vendor_type := "Generic Interface", pfx := pfx
      format := IfFormat.generic
      stack := (ns.getD 0 0 : Nat)
      slot := (ns.getD 1 0 : Nat)
      port := ((if 2 < ns.length then ns.getD 2 0 else (ns.getLast?.getD 0)) : Nat) }

/-- `UniversalInterfaceParser.parse_interface_name`: the ordered pattern list
of `INTERFACE_PATTERNS`, first match wins. -/
def parse_interface_name (s : List Char) : Option ParsedIntf :=
  tryFull gigL "Huawei GigabitEthernet" s <|>
  tryFull geL "Huawei GE Short" s <|>
  tryFull ethernetL "Huawei Ethernet" s <|>
  tryFull ethL "HP Eth" s <|>
  tryFull gigL "HP GigabitEthernet" s <|>
  trySlotPort gigL "Cisco GigabitEthernet" s <|>
  trySlotPort fastL "Cisco FastEthernet" s <|>
  tryGeneric s

/-- "GE " -/
def geSpaceL : List Char := ['G', 'E', ' ']

/-- "/" -/
def slashL : List Char := ['/']

/-- `UniversalInterfaceParser.translate_to_new_format` on a successfully
parsed interface: the f-string `f"GE {unit_number}/{slot}/{port}"`. -/
def translate_to_new_format (p : ParsedIntf) (unit_number : Nat) : List Char :=
  geSpaceL ++ (toString unit_number).data ++ slashL ++
    (toString p.slot).data ++ slashL ++ (toString p.port).data

/-- `InterfaceTranslator.translate_interface_name`: parse, then either render
the new-format name or degrade to the original string. -/
def translate_interface_name (s : List Char) (unit_number : Nat) : List Char :=
  match parse_interface_name s with
  | none => s
  | some p => translate_to_new_format p unit_number

/-- Result dict of `ConfigParser.parse_interface_config` (the
`original_name` key is added later by `InterfaceTranslator.translate_full_config`;
absence of the key is modeled as `none`). -/
structure IfaceConfig where
  name : Option (List Char)
  description : Option (List Char)
  port_link_type : Option (List Char)
  vlan : Option Nat
  trunk_vlans : List Nat
  speed : Option (List Char)
  duplex : Option (List Char)
  shutdown : Bool
  raw_config : List (List Char)
  original_name : Option (List Char)
deriving DecidableEq, Repr

/-- The initial `config` dict of `parse_interface_config`. -/
def defaultIfaceConfig : IfaceConfig :=
  { name := none, description := none, port_link_type := none, vlan := none
    trunk_vlans := [], speed := none, duplex := none, shutdown := false
    raw_config := [], original_name := none }

/-- Python truthiness test `not config['port_link_type']`:
`None` and the empty string are falsy. -/
def pyFalsy : Option (List Char) → Bool
  | none => true
  | some l => l.isEmpty

/-- `re.search(r'vlan\s+(\d+)', ...)` anchored at the start of `s`:
the literal `vlan`, at least one whitespace, then the captured digits. -/
def vlanAt (s : List Char) : Option Nat :=
  match stripPfxOf ['v', 'l', 'a', 'n'] s with
  | none => none
  | some r1 =>
    let sp := r1.takeWhile isPySpace
    let d := (r1.dropWhile isPySpace).takeWhile Char.isDigit
    if sp.isEmpty || d.isEmpty then none else some (digitsToNat d)

/-- `re.search(r'vlan\s+(\d+)', s)`: leftmost match. -/
def searchVlan : List Char → Option Nat
  | [] => none
  | c :: rest =>
    match vlanAt (c :: rest) with
    | some n => some n
    | none => searchVlan rest

/-- `list(range(2, 4095))`: the canonical "all VLANs" expansion. -/
def allVlans : List Nat := List.range' 2 4093

/-- "interface " -/
def ifacePfxL : List Char :=
  ['i', 'n', 't', 'e', 'r', 'f', 'a', 'c', 'e', ' ']

/-- "description " -/
def descPfxL : List Char :=
  ['d', 'e', 's', 'c', 'r', 'i', 'p', 't', 'i', 'o', 'n', ' ']

/-- "port link-type" -/
def linkTypeL : List Char :=
  ['p', 'o', 'r', 't', ' ', 'l', 'i', 'n', 'k', '-', 't', 'y', 'p', 'e']

/-- "access" -/
def accessL : List Char := ['a', 'c', 'c', 'e', 's', 's']

/-- "trunk" -/
def trunkL : List Char := ['t', 'r', 'u', 'n', 'k']

/-- "port default vlan" -/
def defaultVlanL : List Char :=
  ['p', 'o', 'r', 't', ' ', 'd', 'e', 'f', 'a', 'u', 'l', 't', ' ', 'v', 'l', 'a', 'n']

/-- "port access vlan" -/
def accessVlanL : List Char :=
  ['p', 'o', 'r', 't', ' ', 'a', 'c', 'c', 'e', 's', 's', ' ', 'v', 'l', 'a', 'n']

/-- "port trunk allow-pass vlan" -/
def allowPassL : List Char :=
  ['p', 'o', 'r', 't', ' ', 't', 'r', 'u', 'n', 'k', ' ',
   'a', 'l', 'l', 'o', 'w', '-', 'p', 'a', 's', 's', ' ', 'v', 'l', 'a', 'n']

/-- "port trunk permit vlan" -/
def permitVlanL : List Char :=
  ['p', 'o', 'r', 't', ' ', 't', 'r', 'u', 'n', 'k', ' ',
   'p', 'e', 'r', 'm', 'i', 't', ' ', 'v', 'l', 'a', 'n']

/-- "vlan all" -/
def vlanAllL : List Char := ['v', 'l', 'a', 'n', ' ', 'a', 'l', 'l']

/-- "speed " -/
def speedPfxL : List Char := ['s', 'p', 'e', 'e', 'd', ' ']

/-- "duplex " -/
def duplexPfxL : List Char := ['d', 'u', 'p', 'l', 'e', 'x', ' ']

/-- "shutdown" -/
def shutdownL : List Char := ['s', 'h', 'u', 't', 'd', 'o', 'w', 'n']

/-- "#" -/
def hashL : List Char := ['#']

/-- The `if`/`elif` chain of `parse_interface_config`'s loop body, applied to
an already-stripped line.  `Except` models a raised exception: the only
fallible operations are the `line.split()[1]` subscripts. -/
def updFields (cfg : IfaceConfig) (line : List Char) : Except Unit IfaceConfig :=
  if ifacePfxL.isPrefixOf line then
    match (pySplitWs line)[1]? with
    | some t => Except.ok { cfg with name := some t }
    | none => Except.error ()
  else if descPfxL.isPrefixOf line then
    Except.ok { cfg with description := some (replaceAll descPfxL [] line) }
  else if isSubstr linkTypeL line then
    Except.ok
      (if isSubstr accessL line then { cfg with port_link_type := some accessL }
       else if isSubstr trunkL line then { cfg with port_link_type := some trunkL }
       else cfg)
  else if isSubstr defaultVlanL line || isSubstr accessVlanL line then
    Except.ok
      (match searchVlan line with
       | some n =>
         if pyFalsy cfg.port_link_type then
           { cfg with vlan := some n, port_link_type := some accessL }
         else { cfg with vlan := some n }
       | none => cfg)
  else if isSubstr allowPassL line || isSubstr permitVlanL line then
    let c :=
      if pyFalsy cfg.port_link_type then { cfg with port_link_type := some trunkL }
      else cfg
    Except.ok
      (if isSubstr vlanAllL (line.map Char.toLower) then { c with trunk_vlans := allVlans }
       else { c with trunk_vlans := findAllNumbers line })
  else if speedPfxL.isPrefixOf line then
    match (pySplitWs line)[1]? with
    | some t => Except.ok { cfg with speed := some t }
    | none => Except.error ()
  else if duplexPfxL.isPrefixOf line then
    match (pySplitWs line)[1]? with
    | some t => Except.ok { cfg with duplex := some t }
    | none => Except.error ()
  else if line = shutdownL then Except.ok { cfg with shutdown := true }
  else Except.ok cfg

/-- The trailing `if line and not line.startswith('#')` of the loop body:
retain the (stripped) line in `raw_config`. -/
def addRaw (cfg : IfaceConfig) (line : List Char) : IfaceConfig :=
  if !line.isEmpty && !(hashL.isPrefixOf line) then
    { cfg with raw_config := cfg.raw_config ++ [line] }
  else cfg

/-- One iteration of the `for line in lines` loop of `parse_interface_config`:
strip, run the `elif` chain, then retain the raw line. -/
def processLine (cfg : IfaceConfig) (rawLine : List Char) : Except Unit IfaceConfig :=
  match updFields cfg (pyStrip rawLine) with
  | Except.ok c => Except.ok (addRaw c (pyStrip rawLine))
  | Except.error e => Except.error e

/-- `ConfigParser.parse_interface_config`: split on newlines and fold the
loop body over the default record. -/
def parse_interface_config (output : List Char) : Except Unit IfaceConfig :=
  (output.splitOn '\n').foldlM processLine defaultIfaceConfig

/-- `InterfaceTranslator.translate_full_config` (the `switch_type` argument is
unused by the code).  `config.get('name', '')` returns the stored value even
when it is `None`, and `re.match` against `None` raises `TypeError`; the raise
is modeled as `none`. -/
def translate_full_config (cfg : IfaceConfig) (unit_number : Nat) : Option IfaceConfig :=
  match cfg.name with
  | none => none
  | some old =>
    some { cfg with name := some (translate_interface_name old unit_number)
                    original_name := some old }

/-- The per-interface uplink filter of `process_stack` in `routes.py`, for an
interface that `parse_interface_name` recognized: excluded when
`parsed['port'] > port_count`, or when `port_count == 8` and the raw name
lower-cases to a `gigabitethernet...` name. -/
def process_stack_excludes (port_count : Int) (name : List Char) : Option Bool :=
  (parse_interface_name name).map fun p =>
    decide (port_count < p.port) ||
      (decide (port_count = 8) && gigLowerL.isPrefixOf (name.map Char.toLower))

/-- "eth-trunk" -/
def ethTrunkL : List Char := ['e', 't', 'h', '-', 't', 'r', 'u', 'n', 'k']

/-- `re.search(r'eth-trunk\s*(\d+)', ..., re.IGNORECASE)` anchored at the
start of `s` (with `s` already lower-cased). -/
def ethTrunkAt (s : List Char) : Option Nat :=
  match stripPfxOf ethTrunkL s with
  | none => none
  | some r1 =>
    let d := (r1.dropWhile isPySpace).takeWhile Char.isDigit
    if d.isEmpty then none else some (digitsToNat d)

/-- Leftmost `eth-trunk\s*(\d+)` match over a lower-cased string. -/
def searchEthTrunk : List Char → Option Nat
  | [] => none
  | c :: rest =>
    match ethTrunkAt (c :: rest) with
    | some n => some n
    | none => searchEthTrunk rest

/-- `re.search(r'pvid\s+vlan\s+(\d+)', ...)` anchored at the start of `s`. -/
def pvidAt (s : List Char) : Option Nat :=
  match stripPfxOf ['p', 'v', 'i', 'd'] s with
  | none => none
  | some r1 =>
    let sp1 := r1.takeWhile isPySpace
    match stripPfxOf ['v', 'l', 'a', 'n'] (r1.dropWhile isPySpace) with
    | none => none
    | some r2 =>
      let sp2 := r2.takeWhile isPySpace
      let d := (r2.dropWhile isPySpace).takeWhile Char.isDigit
      if sp1.isEmpty || sp2.isEmpty || d.isEmpty then none else some (digitsToNat d)

/-- Leftmost `pvid\s+vlan\s+(\d+)` match. -/
def searchPvid : List Char → Option Nat
  | [] => none
  | c :: rest =>
    match pvidAt (c :: rest) with
    | some n => some n
    | none => searchPvid rest

/-- "nan" -/
def nanL : List Char := ['n', 'a', 'n']

/-- "interface" -/
def ifaceWordL : List Char := ['i', 'n', 't', 'e', 'r', 'f', 'a', 'c', 'e']

/-- "allow-pass" -/
def allowPassWordL : List Char :=
  ['a', 'l', 'l', 'o', 'w', '-', 'p', 'a', 's', 's']

/-- "2 to 4094" -/
def rangeAllL : List Char := ['2', ' ', 't', 'o', ' ', '4', '0', '9', '4']

/-- "pvid" -/
def pvidL : List Char := ['p', 'v', 'i', 'd']

/-- One spreadsheet row as consumed by `parse_layer3_excel` (columns 1-7 of
the sheet; `none` models an empty/falsy cell). -/
structure L3Row where
  old_port : Option (List Char)
  new_port : Option (List Char)
  description : Option (List Char)
  eth_trunk : Option (List Char)
  link_type : Option (List Char)
  config1 : Option (List Char)
  config2 : Option (List Char)
deriving DecidableEq, Repr

/-- One mapping dict produced by `parse_layer3_excel`. -/
structure L3Mapping where
  old_port : Option (List Char)
  new_port : List Char
  description : Option (List Char)
  eth_trunk : Option Nat
  link_type : Option (List Char)
  vlan : Option Nat
  pvid : Option Nat
  trunk_vlans : Option (List Nat)
deriving DecidableEq, Repr

/-- The body of `parse_layer3_excel`'s row loop: `none` models a skipped row
(`continue`). -/
def parseLayer3Row (row : L3Row) : Option L3Mapping :=
  let old_port := row.old_port.map pyStrip
  let description := row.description.map pyStrip
  let eth_trunk := row.eth_trunk.map pyStrip
  let link_type := row.link_type.map pyStrip
  let config1 := row.config1.map pyStrip
  let config2 := row.config2.map pyStrip
  match row.new_port.map pyStrip with
  | none => none
  | some np =>
    if np.isEmpty || np = nanL || !(ifaceWordL.isPrefixOf np) then none
    else
      some
        { old_port := old_port
          new_port := pyStrip (replaceAll ifacePfxL [] np)
          description :=
            match description with
            | some d => if d = nanL then none else some d
            | none => none
          eth_trunk :=
            match eth_trunk with
            | some et =>
              if !et.isEmpty && et ≠ nanL then searchEthTrunk (et.map Char.toLower)
              else none
            | none => none
          link_type :=
            match link_type with
            | some lt =>
              if isSubstr trunkL (lt.map Char.toLower) then some trunkL
              else if isSubstr accessL (lt.map Char.toLower) then some accessL
              else none
            | none => none
          vlan :=
            match config1 with
            | some c1 => if !c1.isEmpty then searchVlan c1 else none
            | none => none
          pvid :=
            match config1 with
            | some c1 =>
              if !c1.isEmpty && isSubstr pvidL (c1.map Char.toLower) then searchPvid c1
              else none
            | none => none
          trunk_vlans :=
            match config2 with
            | some c2 =>
              if isSubstr allowPassWordL (c2.map Char.toLower) &&
                  !(isSubstr rangeAllL c2) && !(findAllNumbers c2).isEmpty then
                some (findAllNumbers c2)
              else none
            | none => none }

/-- The concrete Layer-3 spreadsheet row of end-to-end scenario 3. -/
def c8row : L3Row where
  old_port := none
  new_port := some (("interface XGigabitEthernet1/0/1").data)
  description := none
  eth_trunk := some (("Eth-Trunk 5").data)
  link_type := none
  config1 := none
  config2 := some (("port trunk allow-pass vlan 2 to 4094").data)

/-- The mapping dict that `parse_layer3_excel` builds for `c8row`. -/
def c8map : L3Mapping where
  old_port := none
  new_port := ("XGigabitEthernet1/0/1").data
  description := none
  eth_trunk := some 5
  link_type := none
  vlan := none
  pvid := none
  trunk_vlans := none

/-- A spreadsheet row with every cell empty. -/
def emptyL3Row : L3Row where
  old_port := none
  new_port := none
  description := none
  eth_trunk := none
  link_type := none
  config1 := none
  config2 := none

/-! ### Inversion lemmas for the interface-name grammar -/

theorem orElse_some {α : Type} {a b : Option α} {c : α} (h : (a <|> b) = some c) :
    a = some c ∨ b = some c := by
  cases a with
  | none => right; simpa using h
  | some v => left; simpa using h

theorem stripPfxOf_sound : ∀ {p s r : List Char}, stripPfxOf p s = some r → s = p ++ r := by
  intro p
  induction p with
  | nil =>
    intro s r h
    simp only [stripPfxOf, Option.some.injEq] at h
    simp [h]
  | cons a as ih =>
    intro s r h
    cases s with
    | nil => simp [stripPfxOf] at h
    | cons b bs =>
      simp only [stripPfxOf] at h
      by_cases hab : a = b
      · rw [if_pos hab] at h
        have hbs := ih h
        subst hab
        simp [hbs]
      · rw [if_neg hab] at h
        exact absurd h (by simp)

theorem readNum_some {l : List Char} {a : Int} {r : List Char}
    (h : readNum l = some (a, r)) : 0 ≤ a := by
  unfold readNum at h
  by_cases hd : (l.takeWhile Char.isDigit).isEmpty
  · simp [hd] at h
  · simp only [hd, if_neg, Bool.false_eq_true, not_false_iff, if_false,
      Option.some.injEq, Prod.mk.injEq] at h
    omega

theorem matchSeg3_some {pfx s : List Char} {a b c : Int}
    (h : matchSeg3 pfx s = some (a, b, c)) :
    (∃ r, s = pfx ++ r) ∧ 0 ≤ a ∧ 0 ≤ b ∧ 0 ≤ c := by
  simp only [matchSeg3, bind, Option.bind_eq_some, Option.pure_def,
    Option.some.injEq] at h
  obtain ⟨r1, h1, ⟨a1, r2⟩, h2, r3, h3, ⟨b1, r4⟩, h4, r5, h5, ⟨c1, r6⟩, h6, heq⟩ := h
  obtain ⟨he1, he2⟩ := Prod.mk.injEq .. ▸ heq
  refine ⟨⟨r1, stripPfxOf_sound h1⟩, ?_, ?_, ?_⟩
  · exact he1 ▸ readNum_some h2
  · have := Prod.mk.injEq .. ▸ he2
    exact this.1 ▸ readNum_some h4
  · have := Prod.mk.injEq .. ▸ he2
    exact this.2 ▸ readNum_some h6

theorem matchSeg2_some {pfx s : List Char} {a b : Int}
    (h : matchSeg2 pfx s = some (a, b)) :
    (∃ r, s = pfx ++ r) ∧ 0 ≤ a ∧ 0 ≤ b := by
  simp only [matchSeg2, bind, Option.bind_eq_some, Option.pure_def,
    Option.some.injEq] at h
  obtain ⟨r1, h1, ⟨a1, r2⟩, h2, r3, h3, ⟨b1, r4⟩, h4, heq⟩ := h
  obtain ⟨he1, he2⟩ := Prod.mk.injEq .. ▸ heq
  exact ⟨⟨r1, stripPfxOf_sound h1⟩, he1 ▸ readNum_some h2, he2 ▸ readNum_some h4⟩

theorem genTry_some {p s x : List Char} (h : genTry p s = some x) :
    x = p ∧ ∃ r, s = p ++ r := by
  unfold genTry at h
  split at h
  · rename_i c tail heq
    split at h
    · injection h with h
      exact ⟨h.symm, ⟨c :: tail, stripPfxOf_sound heq⟩⟩
    · exact absurd h (by simp)
  · exact absurd h (by simp)

theorem matchGeneric_some {s x : List Char} (h : matchGeneric s = some x) :
    (x = gigL ∨ x = fastL ∨ x = ethernetL ∨ x = ethL ∨ x = geL) ∧ ∃ r, s = x ++ r := by
  unfold matchGeneric at h
  rcases orElse_some h with h | h
  · exact ⟨Or.inl (genTry_some h).1, (genTry_some h).1 ▸ (genTry_some h).2⟩
  rcases orElse_some h with h | h
  · exact ⟨Or.inr (Or.inl (genTry_some h).1), (genTry_some h).1 ▸ (genTry_some h).2⟩
  rcases orElse_some h with h | h
  · exact ⟨Or.inr (Or.inr (Or.inl (genTry_some h).1)), (genTry_some h).1 ▸ (genTry_some h).2⟩
  rcases orElse_some h with h | h
  · exact ⟨Or.inr (Or.inr (Or.inr (Or.inl (genTry_some h).1))),
      (genTry_some h).1 ▸ (genTry_some h).2⟩
  · exact ⟨Or.inr (Or.inr (Or.inr (Or.inr (genTry_some h).1))),
      (genTry_some h).1 ▸ (genTry_some h).2⟩

theorem tryFull_some {pfx : List Char} {vt : String} {s : List Char} {p : ParsedIntf}
    (h : tryFull pfx vt s = some p) :
    p.pfx = pfx ∧ p.format = IfFormat.full ∧ (∃ r, s = pfx ++ r) ∧
      0 ≤ p.stack ∧ 0 ≤ p.slot ∧ 0 ≤ p.port := by
  unfold tryFull at h
  rw [Option.map_eq_some'] at h
  obtain ⟨⟨a, b, c⟩, hm, hp⟩ := h
  obtain ⟨hr, ha, hb, hc⟩ := matchSeg3_some hm
  subst hp
  exact ⟨rfl, rfl, hr, ha, hb, hc⟩

theorem trySlotPort_some {pfx : List Char} {vt : String} {s : List Char} {p : ParsedIntf}
    (h : trySlotPort pfx vt s = some p) :
    p.pfx = pfx ∧ p.format = IfFormat.slot_port ∧ (∃ r, s = pfx ++ r) ∧
      p.stack = 0 ∧ 0 ≤ p.slot ∧ 0 ≤ p.port := by
  unfold trySlotPort at h
  rw [Option.map_eq_some'] at h
  obtain ⟨⟨a, b⟩, hm, hp⟩ := h
  obtain ⟨hr, ha, hb⟩ := matchSeg2_some hm
  subst hp
  exact ⟨rfl, rfl, hr, rfl, ha, hb⟩

theorem tryGeneric_some {s : List Char} {p : ParsedIntf}
    (h : tryGeneric s = some p) :
    (p.pfx = gigL ∨ p.pfx = fastL ∨ p.pfx = ethernetL ∨ p.pfx = ethL ∨ p.pfx = geL) ∧
      (∃ r, s = p.pfx ++ r) ∧ p.format = IfFormat.generic ∧
      p.stack = ((findAllNumbers s).getD 0 0 : Nat) ∧
      0 ≤ p.stack ∧ 0 ≤ p.slot ∧ 0 ≤ p.port := by
  unfold tryGeneric at h
  rw [Option.map_eq_some'] at h
  obtain ⟨x, hm, hp⟩ := h
  obtain ⟨halt, hr⟩ := matchGeneric_some hm
  subst hp
  refine ⟨halt, hr, rfl, rfl, ?_, ?_, ?_⟩ <;> positivity

theorem parse_some_cases {s : List Char} {p : ParsedIntf}
    (h : parse_interface_name s = some p) :
    tryFull gigL "Huawei GigabitEthernet" s = some p ∨
    tryFull geL "Huawei GE Short" s = some p ∨
    tryFull ethernetL "Huawei Ethernet" s = some p ∨
    tryFull ethL "HP Eth" s = some p ∨
    tryFull gigL "HP GigabitEthernet" s = some p ∨
    trySlotPort gigL "Cisco GigabitEthernet" s = some p ∨
    trySlotPort fastL "Cisco FastEthernet" s = some p ∨
    tryGeneric s = some p := by
  unfold parse_interface_name at h
  rcases orElse_some h with h | h
  · exact Or.inl h
  rcases orElse_some h with h | h
  · exact Or.inr (Or.inl h)
  rcases orElse_some h with h | h
  · exact Or.inr (Or.inr (Or.inl h))
  rcases orElse_some h with h | h
  · exact Or.inr (Or.inr (Or.inr (Or.inl h)))
  rcases orElse_some h with h | h
  · exact Or.inr (Or.inr (Or.inr (Or.inr (Or.inl h))))
  rcases orElse_some h with h | h
  · exact Or.inr (Or.inr (Or.inr (Or.inr (Or.inr (Or.inl h)))))
  rcases orElse_some h with h | h
  · exact Or.inr (Or.inr (Or.inr (Or.inr (Or.inr (Or.inr (Or.inl h))))))
  · exact Or.inr (Or.inr (Or.inr (Or.inr (Or.inr (Or.inr (Or.inr h))))))

theorem isPrefixOf_append_self (x y : List Char) : x.isPrefixOf (x ++ y) = true := by
  rw [List.isPrefixOf_iff_prefix]
  exact List.prefix_append x y

theorem isPrefixOf_cons_false_head {a b : Char} (as bs : List Char)
    (hab : (a == b) = false) : List.isPrefixOf (a :: as) (b :: bs) = false := by
  show ((a == b) && List.isPrefixOf as bs) = false
  rw [hab]
  simp

theorem isPrefixOf_cons2_false {a0 a1 b0 b1 : Char} (as bs : List Char)
    (h : (a1 == b1) = false) :
    List.isPrefixOf (a0 :: a1 :: as) (b0 :: b1 :: bs) = false := by
  show ((a0 == b0) && List.isPrefixOf (a1 :: as) (b1 :: bs)) = false
  rw [isPrefixOf_cons_false_head as bs h]
  simp

/-- Among the literal interface-type tokens of the pattern table, exactly the
`GigabitEthernet` one makes the raw name lower-case to a
`gigabitethernet...` string.  This ties the raw-string test of
`process_stack` to the parsed `prefix` field. -/
theorem parse_gig_pfx_iff {s : List Char} {p : ParsedIntf}
    (h : parse_interface_name s = some p) :
    gigLowerL.isPrefixOf (s.map Char.toLower) = true ↔ p.pfx = gigL := by
  have hgig : ∀ r : List Char,
      gigLowerL.isPrefixOf ((gigL ++ r).map Char.toLower) = true := by
    intro r
    rw [List.map_append, (show gigL.map Char.toLower = gigLowerL by decide)]
    exact isPrefixOf_append_self _ _
  have hge : ∀ r : List Char,
      gigLowerL.isPrefixOf ((geL ++ r).map Char.toLower) = false := by
    intro r
    rw [List.map_append, (show geL.map Char.toLower = ['g', 'e'] by decide)]
    exact isPrefixOf_cons2_false _ _ (by decide)
  have heth : ∀ x r : List Char, x.map Char.toLower = 'e' :: (x.map Char.toLower).tail →
      gigLowerL.isPrefixOf ((x ++ r).map Char.toLower) = false := by
    intro x r hx
    rw [List.map_append, hx]
    exact isPrefixOf_cons_false_head _ _ (by decide)
  have hfast : ∀ r : List Char,
      gigLowerL.isPrefixOf ((fastL ++ r).map Char.toLower) = false := by
    intro r
    rw [List.map_append, (show fastL.map Char.toLower =
      ['f', 'a', 's', 't', 'e', 't', 'h', 'e', 'r', 'n', 'e', 't'] by decide)]
    exact isPrefixOf_cons_false_head _ _ (by decide)
  rcases parse_some_cases h with h1 | h1 | h1 | h1 | h1 | h1 | h1 | h1
  · obtain ⟨hp, _, ⟨r, hr⟩, _⟩ := tryFull_some h1
    exact ⟨fun _ => hp, fun _ => hr ▸ hgig r⟩
  · obtain ⟨hp, _, ⟨r, hr⟩, _⟩ := tryFull_some h1
    rw [hp, hr, hge r]
    exact ⟨fun hx => absurd hx (by decide), fun hx => absurd hx (by decide)⟩
  · obtain ⟨hp, _, ⟨r, hr⟩, _⟩ := tryFull_some h1
    rw [hp, hr, heth ethernetL r (by decide)]
    exact ⟨fun hx => absurd hx (by decide), fun hx => absurd hx (by decide)⟩
  · obtain ⟨hp, _, ⟨r, hr⟩, _⟩ := tryFull_some h1
    rw [hp, hr, heth ethL r (by decide)]
    exact ⟨fun hx => absurd hx (by decide), fun hx => absurd hx (by decide)⟩
  · obtain ⟨hp, _, ⟨r, hr⟩, _⟩ := tryFull_some h1
    exact ⟨fun _ => hp, fun _ => hr ▸ hgig r⟩
  · obtain ⟨hp, _, ⟨r, hr⟩, _⟩ := trySlotPort_some h1
    exact ⟨fun _ => hp, fun _ => hr ▸ hgig r⟩
  · obtain ⟨hp, _, ⟨r, hr⟩, _⟩ := trySlotPort_some h1
    rw [hp, hr, hfast r]
    exact ⟨fun hx => absurd hx (by decide), fun hx => absurd hx (by decide)⟩
  · obtain ⟨halt, ⟨r, hr⟩, _⟩ := tryGeneric_some h1
    rcases halt with hp | hp | hp | hp | hp
    · exact ⟨fun _ => hp, fun _ => by rw [hr, hp]; exact hgig r⟩
    · rw [hp] at hr
      rw [hp, hr, hfast r]
      exact ⟨fun hx => absurd hx (by decide), fun hx => absurd hx (by decide)⟩
    · rw [hp] at hr
      rw [hp, hr, heth ethernetL r (by decide)]
      exact ⟨fun hx => absurd hx (by decide), fun hx => absurd hx (by decide)⟩
    · rw [hp] at hr
      rw [hp, hr, heth ethL r (by decide)]
      exact ⟨fun hx => absurd hx (by decide), fun hx => absurd hx (by decide)⟩
    · rw [hp] at hr
      rw [hp, hr, hge r]
      exact ⟨fun hx => absurd hx (by decide), fun hx => absurd hx (by decide)⟩

/-- No string of the shape `GE <space>...` — in particular no name produced by
`translate_to_new_format` — is recognized by any pattern of the table. -/
theorem parse_GE_space (t : List Char) :
    parse_interface_name ('G' :: 'E' :: ' ' :: t) = none := by
  have hsp : (' ' : Char).isDigit = false := by decide
  simp [parse_interface_name, tryFull, trySlotPort, tryGeneric, matchGeneric, genTry,
    matchSeg3, matchSeg2, stripPfxOf, readNum, gigL, geL, ethernetL, ethL, fastL, hsp]

/-! ### Lemmas about stripping, word-splitting and the config-block parser -/

theorem dropWhile_head?_false {p : Char → Bool} :
    ∀ {l : List Char} {a : Char}, (l.dropWhile p).head? = some a → p a = false := by
  intro l
  induction l with
  | nil => intro a h; simp at h
  | cons c cs ih =>
    intro a h
    by_cases hc : p c
    · rw [List.dropWhile_cons_of_pos hc] at h
      exact ih h
    · rw [List.dropWhile_cons_of_neg hc] at h
      simp only [List.head?_cons, Option.some.injEq] at h
      subst h
      simpa using hc

theorem pyStrip_getLast? {l : List Char} {c : Char}
    (h : (pyStrip l).getLast? = some c) : isPySpace c = false := by
  unfold pyStrip at h
  rw [List.getLast?_reverse] at h
  exact dropWhile_head?_false h

theorem tokensByAux_append {keep : Char → Bool} :
    ∀ (w l acc : List Char), (∀ c ∈ w, keep c = true) →
      tokensByAux keep (w ++ l) acc = tokensByAux keep l (w.reverse ++ acc) := by
  intro w
  induction w with
  | nil => intro l acc _; simp
  | cons a as ih =>
    intro l acc hw
    have ha : keep a = true := hw a (by simp)
    simp only [List.cons_append, tokensByAux, ha, if_true, List.append_eq]
    rw [ih l (a :: acc) (fun c hc => hw c (by simp [hc]))]
    simp

theorem tokensByAux_ne_nil_acc {keep : Char → Bool} :
    ∀ (l acc : List Char), acc ≠ [] → tokensByAux keep l acc ≠ [] := by
  intro l
  induction l with
  | nil =>
    intro acc hacc
    simp [tokensByAux, List.isEmpty_iff, hacc]
  | cons c cs ih =>
    intro acc hacc
    by_cases hc : keep c
    · simp only [tokensByAux, hc, if_true]
      exact ih (c :: acc) (by simp)
    · simp only [tokensByAux, hc, Bool.false_eq_true, if_false,
        List.isEmpty_iff, hacc, List.cons_ne_self]
      simp [hacc]

theorem tokensByAux_ne_nil_mem {keep : Char → Bool} :
    ∀ (l acc : List Char) (c : Char), c ∈ l → keep c = true →
      tokensByAux keep l acc ≠ [] := by
  intro l
  induction l with
  | nil => intro acc c hc; simp at hc
  | cons a as ih =>
    intro acc c hc hk
    by_cases ha : keep a
    · simp only [tokensByAux, ha, if_true]
      exact tokensByAux_ne_nil_acc as (a :: acc) (by simp)
    · have hca : c ≠ a := fun he => ha (he ▸ hk)
      have hmem : c ∈ as := by
        rcases List.mem_cons.mp hc with h | h
        · exact absurd h hca
        · exact h
      by_cases hacc : acc.isEmpty
      · simp only [tokensByAux, ha, Bool.false_eq_true, if_false, hacc, if_true]
        exact ih [] c hmem hk
      · simp only [tokensByAux, ha, Bool.false_eq_true, if_false, hacc, if_false]
        simp

theorem pySplitWs_word_space (w rest : List Char) (hw : w ≠ [])
    (hwk : ∀ c ∈ w, isPySpace c = false) :
    pySplitWs (w ++ ' ' :: rest) = w :: pySplitWs rest := by
  unfold pySplitWs tokensBy
  rw [tokensByAux_append w (' ' :: rest) [] (fun c hc => by simp [hwk c hc])]
  have hsp : (fun c => !isPySpace c) ' ' = false := by decide
  have hne : (w.reverse ++ []).isEmpty = false := by
    simp [List.isEmpty_iff, hw]
  simp only [tokensByAux, hsp, Bool.false_eq_true, if_false, hne]
  simp

theorem second_token_of_pfx {w line : List Char} (hw : w ≠ [])
    (hwk : ∀ c ∈ w, isPySpace c = false)
    (hpre : (w ++ [' ']).isPrefixOf line = true)
    (hl : ∀ c, line.getLast? = some c → isPySpace c = false) :
    ∃ t, (pySplitWs line)[1]? = some t := by
  rw [List.isPrefixOf_iff_prefix] at hpre
  obtain ⟨r, hr⟩ := hpre
  have hline : line = w ++ ' ' :: r := by
    rw [← hr, List.append_assoc]
    rfl
  have hrne : r ≠ [] := by
    intro h0
    subst h0
    have : line.getLast? = some ' ' := by
      rw [hline]
      exact List.getLast?_concat w
    exact absurd (hl ' ' this) (by decide)
  obtain ⟨cl, hcl⟩ : ∃ cl, r.getLast? = some cl := by
    cases hx : r.getLast? with
    | none => exact absurd (List.getLast?_eq_none_iff.mp hx) hrne
    | some x => exact ⟨x, rfl⟩
  have hclr : line.getLast? = some cl := by
    rw [← hr, List.getLast?_append, hcl]
    rfl
  have hclns : isPySpace cl = false := hl cl hclr
  have hclmem : cl ∈ r := by
    obtain ⟨ys, hys⟩ := List.getLast?_eq_some_iff.mp hcl
    rw [hys]
    simp
  rw [hline, pySplitWs_word_space w r hw hwk]
  cases hts : pySplitWs r with
  | nil =>
    exact absurd hts
      (tokensByAux_ne_nil_mem r [] cl hclmem (by simp [hclns]))
  | cons t ts => exact ⟨t, by simp⟩

theorem updFields_ok (cfg : IfaceConfig) (line : List Char)
    (hl : ∀ c, line.getLast? = some c → isPySpace c = false) :
    ∃ c', updFields cfg line = Except.ok c' := by
  unfold updFields
  by_cases h1 : ifacePfxL.isPrefixOf line = true
  · rw [if_pos h1]
    have hpre : (ifaceWordL ++ [' ']).isPrefixOf line = true := by
      rw [show ifaceWordL ++ [' '] = ifacePfxL by decide]
      exact h1
    obtain ⟨t, ht⟩ := second_token_of_pfx (by decide) (by decide) hpre hl
    rw [ht]
    exact ⟨_, rfl⟩
  · rw [if_neg h1]
    by_cases h2 : descPfxL.isPrefixOf line = true
    · rw [if_pos h2]; exact ⟨_, rfl⟩
    rw [if_neg h2]
    by_cases h3 : isSubstr linkTypeL line = true
    · rw [if_pos h3]; exact ⟨_, rfl⟩
    rw [if_neg h3]
    by_cases h4 : (isSubstr defaultVlanL line || isSubstr accessVlanL line) = true
    · rw [if_pos h4]; exact ⟨_, rfl⟩
    rw [if_neg h4]
    by_cases h5 : (isSubstr allowPassL line || isSubstr permitVlanL line) = true
    · rw [if_pos h5]; exact ⟨_, rfl⟩
    rw [if_neg h5]
    by_cases h6 : speedPfxL.isPrefixOf line = true
    · rw [if_pos h6]
      have hpre : ((['s', 'p', 'e', 'e', 'd'] : List Char) ++ [' ']).isPrefixOf line = true := by
        rw [show (['s', 'p', 'e', 'e', 'd'] : List Char) ++ [' '] = speedPfxL by decide]
        exact h6
      obtain ⟨t, ht⟩ := second_token_of_pfx (by decide) (by decide) hpre hl
      rw [ht]
      exact ⟨_, rfl⟩
    rw [if_neg h6]
    by_cases h7 : duplexPfxL.isPrefixOf line = true
    · rw [if_pos h7]
      have hpre : ((['d', 'u', 'p', 'l', 'e', 'x'] : List Char) ++ [' ']).isPrefixOf line = true := by
        rw [show (['d', 'u', 'p', 'l', 'e', 'x'] : List Char) ++ [' '] = duplexPfxL by decide]
        exact h7
      obtain ⟨t, ht⟩ := second_token_of_pfx (by decide) (by decide) hpre hl
      rw [ht]
      exact ⟨_, rfl⟩
    rw [if_neg h7]
    by_cases h8 : line = shutdownL
    · rw [if_pos h8]; exact ⟨_, rfl⟩
    · rw [if_neg h8]; exact ⟨_, rfl⟩

theorem processLine_ok (cfg : IfaceConfig) (raw : List Char) :
    ∃ c, processLine cfg raw = Except.ok c := by
  obtain ⟨c', hc'⟩ := updFields_ok cfg (pyStrip raw) (fun c h => pyStrip_getLast? h)
  refine ⟨addRaw c' (pyStrip raw), ?_⟩
  unfold processLine
  rw [hc']

theorem foldlM_processLine_ok :
    ∀ (lines : List (List Char)) (cfg : IfaceConfig),
      ∃ c, List.foldlM processLine cfg lines = Except.ok c := by
  intro lines
  induction lines with
  | nil => intro cfg; exact ⟨cfg, rfl⟩
  | cons a as ih =>
    intro cfg
    obtain ⟨c1, h1⟩ := processLine_ok cfg a
    obtain ⟨c2, h2⟩ := ih c1
    refine ⟨c2, ?_⟩
    have hfold : List.foldlM processLine cfg (a :: as) =
        processLine cfg a >>= fun x => List.foldlM processLine x as := rfl
    rw [hfold, h1]
    exact h2

theorem addRaw_name (c : IfaceConfig) (l : List Char) : (addRaw c l).name = c.name := by
  unfold addRaw
  split <;> rfl

theorem updFields_name {cfg : IfaceConfig} {line : List Char} {c' : IfaceConfig}
    (h : updFields cfg line = Except.ok c')
    (hni : ifacePfxL.isPrefixOf line = false) : c'.name = cfg.name := by
  unfold updFields at h
  simp only [hni, Bool.false_eq_true, if_false] at h
  repeat' split at h
  all_goals first
    | (injection h with h; subst h; rfl)
    | cases h

theorem processLine_name {cfg c : IfaceConfig} {raw : List Char}
    (h : processLine cfg raw = Except.ok c)
    (hni : ifacePfxL.isPrefixOf (pyStrip raw) = false) : c.name = cfg.name := by
  unfold processLine at h
  cases hu : updFields cfg (pyStrip raw) with
  | error e => rw [hu] at h; cases h
  | ok c1 =>
    rw [hu] at h
    injection h with h
    rw [← h, addRaw_name]
    exact updFields_name hu hni

theorem foldlM_processLine_name :
    ∀ (lines : List (List Char)) (cfg c : IfaceConfig),
      (∀ l ∈ lines, ifacePfxL.isPrefixOf (pyStrip l) = false) →
      List.foldlM processLine cfg lines = Except.ok c → c.name = cfg.name := by
  intro lines
  induction lines with
  | nil =>
    intro cfg c _ h
    injection h with h
    rw [h]
  | cons a as ih =>
    intro cfg c hall h
    have hfold : List.foldlM processLine cfg (a :: as) =
        processLine cfg a >>= fun x => List.foldlM processLine x as := rfl
    rw [hfold] at h
    cases hp : processLine cfg a with
    | error e =>
      rw [hp] at h
      exact Except.noConfusion h
    | ok c1 =>
      rw [hp] at h
      have h1 := processLine_name hp (hall a (by simp))
      have h2 := ih c1 c (fun l hl => hall l (by simp [hl])) h
      rw [h2, h1]

/-! ### Claim theorems -/

/-- Claim C1: for every interface-name string and unit number, when the
interface-name grammar recognizes the string, `translate_interface_name`
returns exactly `"GE {unit}/{slot}/{port}"` built from the parsed slot and
port (prefix and stack segment discarded); when the grammar does not
recognize it, the original string is returned unchanged.  The function is
total (the Python code raises no exception on any string input). -/
theorem claim_C1 (s : List Char) (u : Nat) :
    (∀ p : ParsedIntf, parse_interface_name s = some p →
      translate_interface_name s u =
        geSpaceL ++ (toString u).data ++ slashL ++ (toString p.slot).data ++
          slashL ++ (toString p.port).data) ∧
    (parse_interface_name s = none → translate_interface_name s u = s) := by
  constructor
  · intro p hp
    unfold translate_interface_name
    rw [hp]
    rfl
  · intro hn
    unfold translate_interface_name
    rw [hn]

/-- Witness for C1 at `"GigabitEthernet0/0/1"` (recognized, unit 1) and at
`"not an interface"` (not recognized, returned unchanged). -/
theorem claim_C1_witness :
    translate_interface_name (("GigabitEthernet0/0/1").data) 1 = (("GE 1/0/1").data) ∧
    translate_interface_name (("not an interface").data) 7 = (("not an interface").data) := by
  constructor
  · have h := (claim_C1 (("GigabitEthernet0/0/1").data) 1).1
      ⟨("GigabitEthernet0/0/1").data, "Huawei GigabitEthernet", gigL, IfFormat.full, 0, 0, 1⟩
      (by decide)
    exact h.trans (by decide)
  · exact (claim_C1 (("not an interface").data) 7).2 (by decide)

/-- Claim C4: translation is idempotent — re-translating the output of
`translate_interface_name` with the same unit yields the same string, for
every name the grammar recognizes.  (The canonical `"GE u/slot/port"` output
contains a space after `GE`, so no pattern of the table re-recognizes it and
the second translation returns it unchanged.) -/
theorem claim_C4 (s : List Char) (u : Nat) (p : ParsedIntf)
    (h : parse_interface_name s = some p) :
    translate_interface_name (translate_interface_name s u) u =
      translate_interface_name s u := by
  have h1 : translate_interface_name s u = translate_to_new_format p u := by
    unfold translate_interface_name
    rw [h]
  rw [h1]
  have h3 : parse_interface_name (translate_to_new_format p u) = none := parse_GE_space _
  unfold translate_interface_name
  rw [h3]

/-- Witness for C4 at `"Eth1/0/5"` with unit 2. -/
theorem claim_C4_witness :
    translate_interface_name (translate_interface_name (("Eth1/0/5").data) 2) 2 =
      translate_interface_name (("Eth1/0/5").data) 2 :=
  claim_C4 (("Eth1/0/5").data) 2
    ⟨("Eth1/0/5").data, "HP Eth", ethL, IfFormat.full, 1, 0, 5⟩ (by decide)

/-- Counterexample to claim C5: `"GE1/2"` is matched by the generic fallback
dialect with only two numbers present, yet its `stack` field is 1 (the first
extracted number), not 0 as the claim asserts. -/
theorem claim_C5_counterexample :
    parse_interface_name (("GE1/2").data) =
      some ⟨("GE1/2").data, "Generic Interface", geL, IfFormat.generic, 1, 2, 2⟩ ∧
    (findAllNumbers (("GE1/2").data)).length < 3 ∧
    (decide ((1 : Int) = 0)) = false := by
  refine ⟨by decide, by decide, by decide⟩

/-- Claim C5 (amended): every successful parse has non-negative `port`,
`stack` and `slot`; the slot/port dialects (which have no stack segment)
normalize `stack` to 0; the generic fallback sets `stack` to the first
number found in the string (0 only when no number occurs), not always 0. -/
theorem claim_C5 (s : List Char) (p : ParsedIntf)
    (h : parse_interface_name s = some p) :
    0 ≤ p.port ∧ 0 ≤ p.stack ∧ 0 ≤ p.slot ∧
    (p.format = IfFormat.slot_port → p.stack = 0) ∧
    (p.format = IfFormat.generic → p.stack = ((findAllNumbers s).getD 0 0 : Nat)) := by
  rcases parse_some_cases h with h1 | h1 | h1 | h1 | h1 | h1 | h1 | h1
  · obtain ⟨_, hfmt, _, hst, hsl, hpt⟩ := tryFull_some h1
    refine ⟨hpt, hst, hsl, fun hf => ?_, fun hf => ?_⟩ <;> (rw [hfmt] at hf; cases hf)
  · obtain ⟨_, hfmt, _, hst, hsl, hpt⟩ := tryFull_some h1
    refine ⟨hpt, hst, hsl, fun hf => ?_, fun hf => ?_⟩ <;> (rw [hfmt] at hf; cases hf)
  · obtain ⟨_, hfmt, _, hst, hsl, hpt⟩ := tryFull_some h1
    refine ⟨hpt, hst, hsl, fun hf => ?_, fun hf => ?_⟩ <;> (rw [hfmt] at hf; cases hf)
  · obtain ⟨_, hfmt, _, hst, hsl, hpt⟩ := tryFull_some h1
    refine ⟨hpt, hst, hsl, fun hf => ?_, fun hf => ?_⟩ <;> (rw [hfmt] at hf; cases hf)
  · obtain ⟨_, hfmt, _, hst, hsl, hpt⟩ := tryFull_some h1
    refine ⟨hpt, hst, hsl, fun hf => ?_, fun hf => ?_⟩ <;> (rw [hfmt] at hf; cases hf)
  · obtain ⟨_, hfmt, _, hst0, hsl, hpt⟩ := trySlotPort_some h1
    refine ⟨hpt, by simp [hst0], hsl, fun _ => hst0, fun hf => ?_⟩
    rw [hfmt] at hf
    cases hf
  · obtain ⟨_, hfmt, _, hst0, hsl, hpt⟩ := trySlotPort_some h1
    refine ⟨hpt, by simp [hst0], hsl, fun _ => hst0, fun hf => ?_⟩
    rw [hfmt] at hf
    cases hf
  · obtain ⟨_, _, hfmt, hseq, hst, hsl, hpt⟩ := tryGeneric_some h1
    refine ⟨hpt, hst, hsl, fun hf => ?_, fun _ => hseq⟩
    rw [hfmt] at hf
    cases hf

/-- Witness for C5 at the two-segment Cisco name `"GigabitEthernet0/1"`:
recognized with `stack = 0` and non-negative port. -/
theorem claim_C5_witness :
    parse_interface_name (("GigabitEthernet0/1").data) =
      some ⟨("GigabitEthernet0/1").data, "Cisco GigabitEthernet", gigL,
        IfFormat.slot_port, 0, 0, 1⟩ ∧
    (0 : Int) ≤ 1 ∧ (0 : Int) = 0 := by
  refine ⟨by decide, ?_, ?_⟩
  · exact (claim_C5 (("GigabitEthernet0/1").data)
      ⟨("GigabitEthernet0/1").data, "Cisco GigabitEthernet", gigL,
        IfFormat.slot_port, 0, 0, 1⟩ (by decide)).1
  · exact (claim_C5 (("GigabitEthernet0/1").data)
      ⟨("GigabitEthernet0/1").data, "Cisco GigabitEthernet", gigL,
        IfFormat.slot_port, 0, 0, 1⟩ (by decide)).2.2.2.1 (by decide)

/-- Claim C2: for a unit of declared port capacity and a parseable interface,
`process_stack` excludes the interface from the aggregated stack exactly when
its parsed port exceeds the capacity, or the capacity is 8 and the interface
prefix is `GigabitEthernet`. -/
theorem claim_C2 (name : List Char) (p : ParsedIntf) (port_count : Int)
    (h : parse_interface_name name = some p) :
    process_stack_excludes port_count name = some true ↔
      (port_count < p.port ∨ (port_count = 8 ∧ p.pfx = gigL)) := by
  unfold process_stack_excludes
  rw [h]
  simp only [Option.map_some', Option.some.injEq, Bool.or_eq_true, Bool.and_eq_true,
    decide_eq_true_eq, parse_gig_pfx_iff h]

/-- Witness for C2: with capacity 24 port 25 is excluded and port 24 is not;
with capacity 8 a GigabitEthernet interface is excluded regardless of port. -/
theorem claim_C2_witness :
    process_stack_excludes 24 (("GigabitEthernet0/0/25").data) = some true ∧
    process_stack_excludes 24 (("GigabitEthernet0/0/24").data) = some false ∧
    process_stack_excludes 8 (("GigabitEthernet0/0/3").data) = some true := by
  refine ⟨?_, ?_, ?_⟩
  · exact (claim_C2 (("GigabitEthernet0/0/25").data)
      ⟨("GigabitEthernet0/0/25").data, "Huawei GigabitEthernet", gigL,
        IfFormat.full, 0, 0, 25⟩ 24 (by decide)).mpr (Or.inl (by decide))
  · decide
  · exact (claim_C2 (("GigabitEthernet0/0/3").data)
      ⟨("GigabitEthernet0/0/3").data, "Huawei GigabitEthernet", gigL,
        IfFormat.full, 0, 0, 3⟩ 8 (by decide)).mpr (Or.inr ⟨rfl, rfl⟩)

/-- Claim C3: a trunk-permit line (either vendor spelling) sets the link
type to trunk when it was unset, and sets `trunk_vlans` to the full 2–4094
range when the line contains the `vlan all` keyword, and otherwise to
exactly the integers enumerated on the line. -/
theorem claim_C3 (cfg : IfaceConfig) (line : List Char)
    (hstrip : pyStrip line = line)
    (h1 : ifacePfxL.isPrefixOf line = false)
    (h2 : descPfxL.isPrefixOf line = false)
    (h3 : isSubstr linkTypeL line = false)
    (h4 : isSubstr defaultVlanL line = false)
    (h5 : isSubstr accessVlanL line = false)
    (h6 : (isSubstr allowPassL line || isSubstr permitVlanL line) = true) :
    processLine cfg line =
      Except.ok (addRaw
        { cfg with
          port_link_type :=
            if pyFalsy cfg.port_link_type then some trunkL else cfg.port_link_type
          trunk_vlans :=
            if isSubstr vlanAllL (line.map Char.toLower) then allVlans
            else findAllNumbers line }
        line) ∧
    (∀ v : Nat, v ∈ allVlans ↔ 2 ≤ v ∧ v ≤ 4094) := by
  constructor
  · unfold processLine
    rw [hstrip]
    unfold updFields
    simp only [h1, h2, h3, h4, h5, h6, Bool.false_eq_true, if_false, Bool.or_self,
      if_true]
    by_cases hall : isSubstr vlanAllL (line.map Char.toLower) = true
    · by_cases hft : pyFalsy cfg.port_link_type = true
      · simp [hall, hft]
      · simp [hall, hft]
    · by_cases hft : pyFalsy cfg.port_link_type = true
      · simp [hall, hft]
      · simp [hall, hft]
  · intro v
    unfold allVlans
    rw [List.mem_range']
    constructor
    · rintro ⟨i, hi, he⟩
      omega
    · intro hv
      exact ⟨v - 2, by omega, by omega⟩

/-- Witness for C3 at the enumerated-list line `"port trunk allow-pass vlan
10 20 30"` on a fresh record: link type becomes trunk and `trunk_vlans`
becomes exactly `[10, 20, 30]`; and the all-VLANs expansion contains 10 but
not 4095. -/
theorem claim_C3_witness :
    processLine defaultIfaceConfig (("port trunk allow-pass vlan 10 20 30").data) =
      Except.ok { defaultIfaceConfig with
        port_link_type := some trunkL
        trunk_vlans := [10, 20, 30]
        raw_config := [("port trunk allow-pass vlan 10 20 30").data] } ∧
    10 ∈ allVlans ∧ (decide (4095 ∈ allVlans)) = false := by
  obtain ⟨heq, hall⟩ := claim_C3 defaultIfaceConfig
    (("port trunk allow-pass vlan 10 20 30").data)
    (by decide) (by decide) (by decide) (by decide) (by decide) (by decide) (by decide)
  refine ⟨heq.trans (by rfl), (hall 10).mpr (by decide), ?_⟩
  rw [decide_eq_false_iff_not]
  intro hc
  exact absurd ((hall 4095).mp hc) (by decide)

/-- Counterexample to claim C6: in the block
`"port trunk permit vlan 5\nport default vlan 7"` no `port link-type` line
occurs, yet after the access-VLAN line the link mode is trunk (set by the
preceding trunk-permit line), not the claimed inferred Access. -/
theorem claim_C6_counterexample :
    (parse_interface_config (("port trunk permit vlan 5\nport default vlan 7").data)).toOption.map
      (fun c => (c.vlan, c.port_link_type)) = some (some 7, some trunkL) ∧
    ((("port trunk permit vlan 5\nport default vlan 7").data.splitOn '\n').all
      (fun l => !(isSubstr linkTypeL (pyStrip l)))) = true ∧
    (trunkL == accessL) = false := by
  refine ⟨by decide, by decide, by decide⟩

/-- Claim C6 (amended): an access-VLAN line in either vendor spelling sets
`vlan` to the scanned number and infers Access mode exactly when the link
mode is still unset when that line is processed (a preceding trunk-permit
line also counts as setting it, not only a `port link-type` line); an
already-set link mode is never overridden. -/
theorem claim_C6 (cfg : IfaceConfig) (line : List Char) (n : Nat)
    (hstrip : pyStrip line = line)
    (h1 : ifacePfxL.isPrefixOf line = false)
    (h2 : descPfxL.isPrefixOf line = false)
    (h3 : isSubstr linkTypeL line = false)
    (h4 : (isSubstr defaultVlanL line || isSubstr accessVlanL line) = true)
    (hv : searchVlan line = some n) :
    processLine cfg line =
      Except.ok (addRaw
        { cfg with
          vlan := some n
          port_link_type :=
            if pyFalsy cfg.port_link_type then some accessL else cfg.port_link_type }
        line) ∧
    (pyFalsy cfg.port_link_type = false →
      processLine cfg line = Except.ok (addRaw { cfg with vlan := some n } line)) := by
  have hmain : processLine cfg line =
      Except.ok (addRaw
        { cfg with
          vlan := some n
          port_link_type :=
            if pyFalsy cfg.port_link_type then some accessL else cfg.port_link_type }
        line) := by
    unfold processLine
    rw [hstrip]
    unfold updFields
    simp only [h1, h2, h3, h4, Bool.false_eq_true, if_false, if_true, hv]
    by_cases hft : pyFalsy cfg.port_link_type = true
    · simp [hft]
    · simp [hft]
  refine ⟨hmain, fun hft => ?_⟩
  rw [hmain]
  simp [hft]

/-- Witness for C6 at `"port default vlan 10"` on a fresh record: the access
VLAN is set to 10 and Access mode is inferred. -/
theorem claim_C6_witness :
    processLine defaultIfaceConfig (("port default vlan 10").data) =
      Except.ok { defaultIfaceConfig with
        vlan := some 10
        port_link_type := some accessL
        raw_config := [("port default vlan 10").data] } := by
  have h := (claim_C6 defaultIfaceConfig (("port default vlan 10").data) 10
    (by decide) (by decide) (by decide) (by decide) (by decide) (by decide)).1
  exact h.trans (by rfl)

/-- Counterexample to claim C7: the block `"shutdown"` contains no
interface-name line, and the parsed record indeed has `name = none`, but its
`shutdown` field (and `raw_config`) do not keep their defaults, contradicting
"all other fields keep their defaults". -/
theorem claim_C7_counterexample :
    parse_interface_config (("shutdown").data) =
      Except.ok { defaultIfaceConfig with
        shutdown := true
        raw_config := [("shutdown").data] } ∧
    ifacePfxL.isPrefixOf (pyStrip (("shutdown").data)) = false ∧
    ({ defaultIfaceConfig with
        shutdown := true
        raw_config := [("shutdown").data] } : IfaceConfig).shutdown = true ∧
    defaultIfaceConfig.shutdown = false := by
  refine ⟨by rfl, by decide, by rfl, by rfl⟩

/-- Claim C7 (amended): the config-block parser is total — it returns a
record for every input string without raising (the only fallible operations,
the `line.split()[1]` subscripts, are guarded by the stripped-prefix tests);
and when no (stripped) line of the input starts with `"interface "`, the
returned record has `name = none`.  Fields of other recognized lines may
still be set; only fields with no recognized line keep their defaults. -/
theorem claim_C7 :
    (∀ output : List Char, ∃ c, parse_interface_config output = Except.ok c) ∧
    (∀ output : List Char,
      (∀ l ∈ output.splitOn '\n', ifacePfxL.isPrefixOf (pyStrip l) = false) →
      ∃ c, parse_interface_config output = Except.ok c ∧ c.name = none) := by
  constructor
  · intro output
    exact foldlM_processLine_ok (output.splitOn '\n') defaultIfaceConfig
  · intro output hall
    obtain ⟨c, hc⟩ := foldlM_processLine_ok (output.splitOn '\n') defaultIfaceConfig
    refine ⟨c, hc, ?_⟩
    have h := foldlM_processLine_name (output.splitOn '\n') defaultIfaceConfig c hall hc
    simpa using h

/-- Witness for C7 at the block `"shutdown"`: parsing succeeds and yields a
null name. -/
theorem claim_C7_witness :
    (parse_interface_config (("shutdown").data)).toOption.map IfaceConfig.name =
      some none := by
  obtain ⟨c, hc, hn⟩ := claim_C7.2 (("shutdown").data) (by decide)
  rw [hc]
  show some c.name = some none
  rw [hn]

/-- Claim C8: the Layer-3 importer maps the scenario-3 row (new-port
`"interface XGigabitEthernet1/0/1"`, eth-trunk label `"Eth-Trunk 5"`,
config-text-2 `"port trunk allow-pass vlan 2 to 4094"`) to a mapping with
`eth_trunk = 5` and no explicit `trunk_vlans` list; and it skips every row
whose new-port cell is missing or does not start with an interface
declaration. -/
theorem claim_C8 :
    parseLayer3Row c8row = some c8map ∧
    (∀ row : L3Row, row.new_port = none → parseLayer3Row row = none) ∧
    (∀ (row : L3Row) (np : List Char), row.new_port = some np →
      ifaceWordL.isPrefixOf (pyStrip np) = false → parseLayer3Row row = none) := by
  refine ⟨by decide, ?_, ?_⟩
  · intro row h
    unfold parseLayer3Row
    rw [h]
    rfl
  · intro row np h hpfx
    unfold parseLayer3Row
    rw [h]
    simp [hpfx]

/-- Witness for C8: the all-empty row is skipped. -/
theorem claim_C8_witness : parseLayer3Row emptyL3Row = none :=
  claim_C8.2.1 emptyL3Row rfl

/-- Counterexample to claim C9: on a record whose `name` is null,
`translate_full_config` does not return a record at all — `config.get('name',
'')` returns the stored `None` (the key exists), and `re.match` on `None`
raises `TypeError` (modeled as `none`). -/
theorem claim_C9_counterexample :
    translate_full_config { defaultIfaceConfig with name := none } 1 = none := rfl

/-- Claim C9 (amended): for every record whose `name` field holds a string,
`translate_full_config` replaces only `name` (with the translated name, or
the old name unchanged when translation degrades) and sets `original_name`
to the pre-translation name; every other field is unchanged.  A record with
a null name instead raises. -/
theorem claim_C9 (cfg : IfaceConfig) (u : Nat) (nm : List Char)
    (h : cfg.name = some nm) :
    ∃ r, translate_full_config cfg u = some r ∧
      r.name = some (translate_interface_name nm u) ∧
      r.original_name = some nm ∧
      r.description = cfg.description ∧
      r.port_link_type = cfg.port_link_type ∧
      r.vlan = cfg.vlan ∧
      r.trunk_vlans = cfg.trunk_vlans ∧
      r.speed = cfg.speed ∧
      r.duplex = cfg.duplex ∧
      r.shutdown = cfg.shutdown ∧
      r.raw_config = cfg.raw_config := by
  refine ⟨{ cfg with
      name := some (translate_interface_name nm u)
      original_name := some nm }, ?_, rfl, rfl, rfl, rfl, rfl, rfl, rfl, rfl, rfl, rfl⟩
  unfold translate_full_config
  rw [h]

/-- Witness for C9 at a record named `"Eth1/0/5"`, unit 2. -/
theorem claim_C9_witness :
    (translate_full_config { defaultIfaceConfig with
        name := some (("Eth1/0/5").data) } 2).map IfaceConfig.name =
      some (some (("GE 2/0/5").data)) := by
  obtain ⟨r, hr, hname, _⟩ := claim_C9
    { defaultIfaceConfig with name := some (("Eth1/0/5").data) } 2
    (("Eth1/0/5").data) rfl
  rw [hr, Option.map_some', hname]
  decide

/-- Claim C10: the config-block parser does not interpret the Huawei `to`
range keyword — the line `"port trunk allow-pass vlan 2 to 4094"` sets
`trunk_vlans` to exactly the literal integers `[2, 4094]`, not the expanded
full range. -/
theorem claim_C10 :
    processLine defaultIfaceConfig (("port trunk allow-pass vlan 2 to 4094").data) =
      Except.ok { defaultIfaceConfig with
        port_link_type := some trunkL
        trunk_vlans := [2, 4094]
        raw_config := [("port trunk allow-pass vlan 2 to 4094").data] } ∧
    (parse_interface_config
        (("interface GigabitEthernet0/0/1\nport trunk allow-pass vlan 2 to 4094").data)).toOption.map
      IfaceConfig.trunk_vlans = some [2, 4094] ∧
    ([2, 4094] : List Nat).length = 2 ∧ allVlans.length = 4093 := by
  refine ⟨by rfl, by decide, rfl, by simp [allVlans]⟩
